import Mathlib

/-!
# PPE Marts: chatbot endpoint and requirement calculator

A shallow embedding of `api/ai-assistant.js` (request handler, completion call with
local fallback, keyword responder, product recommender) and of the calculator part of
`script.js` (calculate / reset click handlers), with the properties proved about them.

Conventions of the embedding.

* JavaScript strings are Lean `String`s. `String.prototype.toLowerCase` is a language
  builtin; the functions that call it take it as the argument `toLowerCase`, so every
  theorem holds for the real Unicode lower-casing. `asciiLower` is an executable
  instance used for concrete evaluations (all inputs evaluated are ASCII).
* `Object.entries` of an object literal with non-numeric keys lists the keys in the
  order of their first declaration; a repeated key keeps its first position.
* `Math.random` only enters through the comparator of `Array.prototype.sort`; the
  sorted copy is an argument `shuffle` of the embedding.
* Numbers are IEEE-754 binary64, embedded as exact fractions with explicit rounding
  to 53 significant bits after every operation (section `F64`).
-/

namespace PPEMarts

/-! ## Exceptions

A JavaScript function that may throw returns `Except String`, the string naming the
exception; `try .. catch` is a `match` on that result. -/

deriving instance DecidableEq for Except

/-! ## Strings -/

/-- `startsWith cs ks`: the character list `ks` is a prefix of `cs`. -/
def startsWith : List Char → List Char → Bool
  | _, [] => true
  | [], _ :: _ => false
  | c :: cs, k :: ks => c == k && startsWith cs ks

/-- Substring search on character lists: `ks` occurs contiguously somewhere in `cs`. -/
def includesChars : List Char → List Char → Bool
  | [], ks => startsWith [] ks
  | c :: cs, ks => startsWith (c :: cs) ks || includesChars cs ks

/-- `String.prototype.includes`: `message.includes(key)`. -/
def includes (message key : String) : Bool :=
  includesChars message.data key.data

/-- ASCII lower-casing, an executable instance of `toLowerCase`. -/
def asciiLower (s : String) : String :=
  ⟨s.data.map Char.toLower⟩

/-! ## Conversation responder: `generateFallbackResponse` -/

/-- The value of `responses.default`. -/
def defaultResponse : String :=
  "I'm here to help with PPE safety! I can assist with product selection, safety regulations, hazard assessments, and proper usage guidelines. Please ask about specific equipment or safety scenarios."

/-- The `responses` object literal, as its `Object.entries` in declaration order.
The `default` entry is an ordinary own property and is therefore part of the scan. -/
def responses : List (String × String) :=
  [ ("construction", "For construction work, OSHA requires: hard hat (ANSI Z89.1), safety glasses, high-vis vest, steel-toe boots (ASTM F2413), and gloves. Additional PPE needed for specific tasks: hearing protection for loud areas, respirators for dust, fall protection for heights over 6 feet."),
    ("hard hat", "Hard hats must be ANSI Z89.1 certified. Types: Class G (general, 2,200V), Class E (electrical, 20,000V), Class C (conductive, no voltage protection). Replace after any significant impact or every 5 years."),
    ("glove", "Select gloves based on hazard: Chemical - nitrile/rubber, Cut - Kevlar/metal mesh, Heat - aluminized/leather, Cold - insulated, General - leather/canvas. Ensure proper fit and dexterity."),
    ("chemical glove", "For chemical protection: Nitrile for oils/solvents, Butyl rubber for ketones/esters, Neoprene for acids/alcohols, Viton for chlorinated/aromatic solvents. Check chemical compatibility charts."),
    ("respirator", "Respirator types: N95 for particles, half-face for gases/vapors with cartridges, full-face for eye/respiratory combo, PAPR for comfort in extended use. Fit testing required annually."),
    ("mask", "Mask types: Surgical - fluid resistance, N95 - 95% particle filtration, KN95 - Chinese standard, FFP2 - European standard. Ensure proper seal and replace when damaged/soiled."),
    ("fall", "Fall protection system: Full-body harness, shock-absorbing lanyard (6 ft max), anchor point (5,000 lb rating), rescue plan. Inspect before each use. OSHA requires training."),
    ("harness", "Harness features: Dorsal D-ring for fall arrest, shoulder D-rings for retrieval, side D-rings for positioning, chest D-ring for ladder climbing. Fit: 1-2 fingers between leg straps and thighs."),
    ("safety shoe", "Safety shoe standards: ASTM F2413 for impact/compression, EH for electrical hazard, SD for static dissipative, PR for puncture resistant. Match to workplace hazards."),
    ("goggle", "Eye protection: Safety glasses for impact, goggles for chemical splash, face shields for face/eye combo, welding helmets for arc flash. ANSI Z87.1 certification required."),
    ("osha", "Key OSHA PPE standards: 1910.132 (General Requirements), 1910.133 (Eye/Face), 1910.134 (Respiratory), 1910.135 (Head), 1910.136 (Foot), 1910.137 (Electrical), 1910.138 (Hand)."),
    ("regulation", "PPE regulations vary by: Industry (construction, healthcare, manufacturing), Country (OSHA-US, CE-Europe), Hazard type. Always consult local regulations and conduct hazard assessments."),
    ("default", defaultResponse) ]

/-- The loop `for (const [key, response] of entries) if (message.includes(key)) return response`:
the value returned from inside the loop, or `none` when the loop runs to its end. -/
def scanResponses (message : String) : List (String × String) → Option String
  | [] => none
  | (key, response) :: rest =>
    if includes message key then some response else scanResponses message rest

/-- `generateFallbackResponse(userMessage, products)`; the `products` argument is unused. -/
def generateFallbackResponse (toLowerCase : String → String) (userMessage : String) : String :=
  let message := toLowerCase userMessage
  match scanResponses message responses with
  | some response => response
  | none => defaultResponse

/-! ## Product catalog: `getPPEProducts` -/

/-- A catalog entry. `rating` is the decimal literal as written; `badge` is `none` where the
object literal has no `badge` property. -/
structure Product where
  id : Nat
  name : String
  category : String
  brand : String
  image : String
  affiliateLink : String
  description : String
  rating : ℚ
  badge : Option String
  deriving DecidableEq

/-- `getPPEProducts()`: the nine sample products, in array order. -/
def getPPEProducts : List Product :=
  [ { id := 1, name := "Personal Protective Equipment KIT (PPE KIT)", category := "body",
      brand := "SafetyPro", image := "assets/images/products/ppe-kit.jpg",
      affiliateLink := "https://amzn.to/4bcAm6e",
      description := "Complete PPE kit for full body protection",
      rating := 4.5, badge := some "Bestseller" },
    { id := 2, name := "Serplex Gas Mask Set Respirator", category := "respiratory",
      brand := "Serplex", image := "assets/images/products/gas-mask.jpg",
      affiliateLink := "https://amzn.to/4s4Fr6K",
      description := "Gas mask with respirator for chemical protection",
      rating := 4.3, badge := some "Industrial" },
    { id := 3, name := "Non Woven Polypropylene Disposable Gown", category := "body",
      brand := "MediSafe", image := "assets/images/products/disposable-gown.jpg",
      affiliateLink := "https://amzn.to/49rqlRr",
      description := "Disposable protective gown for medical use",
      rating := 4.2, badge := some "Medical" },
    { id := 4, name := "CF IND Full Body Safety Harness", category := "fall",
      brand := "CF IND", image := "assets/images/products/safety-harness.jpg",
      affiliateLink := "https://amzn.to/4jh3StM",
      description := "Full body harness for fall protection",
      rating := 4.7, badge := some "Premium" },
    { id := 5, name := "Karam Magna Premium Full Body Safety Harness", category := "fall",
      brand := "Karam", image := "assets/images/products/premium-harness.jpg",
      affiliateLink := "https://amzn.to/494Ws89",
      description := "Premium safety harness with comfort padding",
      rating := 4.8, badge := some "Top Rated" },
    { id := 6, name := "Safety Goggles Anti-Fog", category := "eye",
      brand := "VisionSafe", image := "assets/images/products/safety-goggles.jpg",
      affiliateLink := "#",
      description := "Anti-fog safety goggles with UV protection",
      rating := 4.4, badge := none },
    { id := 7, name := "Industrial Safety Helmet", category := "head",
      brand := "HardHat Pro", image := "assets/images/products/safety-helmet.jpg",
      affiliateLink := "#",
      description := "Industrial safety helmet with chin strap",
      rating := 4.6, badge := some "Bestseller" },
    { id := 8, name := "Safety Shoes Steel Toe", category := "foot",
      brand := "FootGuard", image := "assets/images/products/safety-shoes.jpg",
      affiliateLink := "#",
      description := "Steel toe safety shoes with slip resistance",
      rating := 4.5, badge := none },
    { id := 9, name := "Nitrile Gloves Box of 100", category := "hand",
      brand := "GloveMaster", image := "assets/images/products/nitrile-gloves.jpg",
      affiliateLink := "#",
      description := "Nitrile gloves box of 100 pieces",
      rating := 4.7, badge := some "Medical" } ]

/-! ## Recommendation selector: `getRelevantProducts` -/

/-- The `keywordMap` object literal, as its `Object.entries`. The literal declares `helmet`
twice with the same value; the property exists once, at the position of its first
declaration, so the scan sees 26 entries. -/
def keywordMap : List (String × String) :=
  [ ("mask", "respiratory"), ("respirator", "respiratory"), ("breathing", "respiratory"),
    ("lung", "respiratory"), ("n95", "respiratory"),
    ("helmet", "head"), ("hard hat", "head"), ("head", "head"),
    ("goggle", "eye"), ("glasses", "eye"), ("eye", "eye"), ("vision", "eye"),
    ("glove", "hand"), ("hand", "hand"),
    ("suit", "body"), ("gown", "body"), ("vest", "body"), ("body", "body"), ("ppe kit", "body"),
    ("shoe", "foot"), ("boot", "foot"), ("foot", "foot"),
    ("harness", "fall"), ("fall", "fall"), ("height", "fall"), ("lanyard", "fall") ]

/-- The loop that fills `relevantCategories`: one `push(category)` per entry whose keyword
occurs in `message`, in entry order. -/
def collectCategories (message : String) : List (String × String) → List String
  | [] => []
  | (keyword, category) :: rest =>
    if includes message keyword then category :: collectCategories message rest
    else collectCategories message rest

/-- `getRelevantProducts(userMessage, products)`. `shuffle products` stands for
`[...products].sort(() => 0.5 - Math.random())`; `slice(0, 4)` is `take 4`. -/
def getRelevantProducts (toLowerCase : String → String) (shuffle : List Product → List Product)
    (userMessage : String) (products : List Product) : List Product :=
  let message := toLowerCase userMessage
  let relevantCategories := collectCategories message keywordMap
  if relevantCategories.length = 0 then
    (shuffle products).take 4
  else
    (products.filter (fun product => relevantCategories.contains product.category)).take 4

/-- The variant of `getRelevantProducts` that removes repeated entries from the
matched-category list before the emptiness test and the filter. It is not part of the
source: it is the function `getRelevantProducts` is compared with. -/
def getRelevantProductsDedup (toLowerCase : String → String)
    (shuffle : List Product → List Product) (userMessage : String) (products : List Product) :
    List Product :=
  let message := toLowerCase userMessage
  let relevantCategories := (collectCategories message keywordMap).dedup
  if relevantCategories.length = 0 then
    (shuffle products).take 4
  else
    (products.filter (fun product => relevantCategories.contains product.category)).take 4

/-! ## Numbers: IEEE-754 binary64 arithmetic

Every JavaScript number is a binary64 value. The calculator multiplies positive
magnitudes only (the sign is handled separately, rounding to nearest is symmetric), so a
value is kept as an exact fraction `num / den` of naturals and every operation rounds its
exact result to 53 significant bits, ties to even. The exponent range is not bounded:
overflow to `Infinity` and gradual underflow are outside the model; neither occurs for
operands below `2 ^ 53` with the rates of `ppeItems`. -/

/-- A decimal literal `mantissa / 10 ^ exponent`; `0.005` is `⟨5, 3⟩`, `2` is `⟨2, 0⟩`. -/
structure Decimal where
  mantissa : Nat
  exponent : Nat
  deriving DecidableEq

/-- A non-negative finite binary64 value, kept as the exact fraction `num / den`. -/
structure F64 where
  num : Nat
  den : Nat
  deriving DecidableEq

namespace F64

/-- Index of the leading one bit, by halving: `log2Fuel n n = ⌊log₂ n⌋` for `1 ≤ n`. -/
def log2Fuel : Nat → Nat → Nat
  | 0, _ => 0
  | fuel + 1, n => if n < 2 then 0 else log2Fuel fuel (n / 2) + 1

/-- The integer nearest to `q + r / D` (where `r < D`), the even one of the two on a tie. -/
def nearestEven (q r D : Nat) : Nat :=
  if 2 * r < D then q
  else if D < 2 * r then q + 1
  else if q % 2 = 0 then q else q + 1

/-- Round the fraction `n / d` to the nearest binary64 value, ties to even.
With `ln`, `ld` the leading-bit indices of `n` and `d`, the quotient `N / D0` lies strictly
between `2 ^ 52` and `2 ^ 54`; `c` halves it when needed, so that `q` has exactly 53 bits.
The result is `mant * ulp`, where `ulp = c * 2 ^ ln / 2 ^ (53 + ld)`. -/
def roundToNearest (n d : Nat) : F64 :=
  if n = 0 ∨ d = 0 then ⟨0, 1⟩
  else
    let ln := log2Fuel n n
    let ld := log2Fuel d d
    let N := n * 2 ^ (53 + ld)
    let D0 := d * 2 ^ ln
    let c := if N / D0 < 2 ^ 53 then 1 else 2
    let D := c * D0
    let q := N / D
    let r := N % D
    let mant := nearestEven q r D
    ⟨mant * (c * 2 ^ ln), 2 ^ (53 + ld)⟩

/-- The number value of a non-negative integer. -/
def ofNat (n : Nat) : F64 := roundToNearest n 1

/-- The number value of a decimal literal of the source text. -/
def ofDecimal (x : Decimal) : F64 := roundToNearest x.mantissa (10 ^ x.exponent)

/-- The `*` operator on non-negative numbers. -/
def mul (a b : F64) : F64 := roundToNearest (a.num * b.num) (a.den * b.den)

/-- `Math.ceil` on a non-negative number. -/
def ceil (a : F64) : Nat := (a.num + a.den - 1) / a.den

/-- `Math.floor` on a non-negative number. -/
def floor (a : F64) : Nat := a.num / a.den

end F64

/-! ## Requirement calculator: `ppeItems`, `ppePresets`, the click handlers -/

/-- An entry of `ppeItems`. `perWorkerPerDay` is the literal as written in the source. -/
structure PPEItem where
  name : String
  desc : String
  unit : String
  perWorkerPerDay : Decimal
  deriving DecidableEq

/-- The `ppeItems` object literal, as key / value pairs in declaration order. -/
def ppeItems : List (String × PPEItem) :=
  [ ("mask", ⟨"Face Masks", "Surgical/N95 masks", "pieces", ⟨2, 0⟩⟩),
    ("gloves", ⟨"Gloves", "Disposable latex/nitrile gloves", "pairs", ⟨2, 0⟩⟩),
    ("gown", ⟨"Disposable Gowns", "Protective gowns/coveralls", "pieces", ⟨5, 1⟩⟩),
    ("faceShield", ⟨"Face Shields", "Reusable face shields", "pieces", ⟨2, 1⟩⟩),
    ("goggles", ⟨"Safety Goggles", "Protective eyewear", "pairs", ⟨1, 1⟩⟩),
    ("respirator", ⟨"Respirators", "Half/full face respirators", "pieces", ⟨5, 2⟩⟩),
    ("harness", ⟨"Safety Harness", "Full body harness", "pieces", ⟨1, 2⟩⟩),
    ("helmet", ⟨"Safety Helmet", "Hard hats/helmets", "pieces", ⟨1, 2⟩⟩),
    ("shoes", ⟨"Safety Shoes", "Steel-toe boots", "pairs", ⟨5, 3⟩⟩) ]

/-- The `ppePresets` object literal. -/
def ppePresets : List (String × List String) :=
  [ ("basic", ["mask", "gloves", "gown"]),
    ("full", ["mask", "gloves", "gown", "faceShield", "goggles"]),
    ("respiratory", ["mask", "gloves", "respirator", "goggles"]),
    ("fall", ["helmet", "harness", "shoes", "gloves"]),
    ("custom", []) ]

/-- `Math.ceil(workers * item.perWorkerPerDay * workDays)`, evaluated left to right in
binary64. The rates are positive, so the sign of the product is the sign of
`workers * workDays`; `Math.ceil` of a negative number is minus the floor of its magnitude
(`-0` is identified with `0`). -/
def monthlyQty (workers : Int) (rate : Decimal) (workDays : Int) : Int :=
  let magnitude :=
    F64.mul (F64.mul (F64.ofNat workers.natAbs) (F64.ofDecimal rate)) (F64.ofNat workDays.natAbs)
  if 0 ≤ workers * workDays then (F64.ceil magnitude : Int) else -(F64.floor magnitude : Int)

/-- An element of the `results` array. -/
structure ResultLine where
  name : String
  desc : String
  qty : Int
  unit : String
  perWorker : Decimal
  deriving DecidableEq

/-- An `input[name="ppeItem"]` checkbox of the page. -/
structure Checkbox where
  value : String
  checked : Bool
  deriving DecidableEq

/-- What `displayResults` renders into `resultsTotal`. -/
structure TotalBox where
  workers : Int
  workDays : Int
  totalMonthly : Int
  deriving DecidableEq

/-- The part of the page the calculator handlers read and write. The two number fields
hold what `parseInt` reads from them (`none` is `NaN`). `resultsTotal = none` is the empty
`innerHTML`. -/
structure Page where
  workers : Option Int
  workDays : Option Int
  ppeType : String
  ppeCustomSectionDisplay : String
  ppeItemBoxes : List Checkbox
  resultsTable : List ResultLine
  resultsTotal : Option TotalBox
  placeholderDisplay : String
  deriving DecidableEq

/-- The expression `parseInt(field.value) || dflt`: `NaN` and `0` are falsy. -/
def parsedOr (field : Option Int) (dflt : Int) : Int :=
  match field with
  | none => dflt
  | some 0 => dflt
  | some n => n

/-- The value `ppeType === 'custom' ? checked values : ppePresets[ppeType]`; `none` when
`ppePresets[ppeType]` is `undefined`. -/
def selectedItems (page : Page) : Option (List String) :=
  if page.ppeType = "custom" then
    some ((page.ppeItemBoxes.filter (fun cb => cb.checked)).map (fun cb => cb.value))
  else
    ppePresets.lookup page.ppeType

/-- The object pushed onto `results` for one item. -/
def resultLine (workers workDays : Int) (item : PPEItem) : ResultLine :=
  { name := item.name
    desc := item.desc
    qty := monthlyQty workers item.perWorkerPerDay workDays
    unit := item.unit
    perWorker := item.perWorkerPerDay }

/-- The `selectedItems.forEach` loop with its accumulators `results` and `totalMonthly`.
Reading `perWorkerPerDay` of an undefined item throws. `totalMonthly` sums integer-valued
numbers, which is exact below `2 ^ 53`. Keys naming members of `Object.prototype` are outside
the model. -/
def calcLoop (workers workDays : Int) :
    List String → List ResultLine → Int → Except String (List ResultLine × Int)
  | [], results, totalMonthly => .ok (results, totalMonthly)
  | itemKey :: rest, results, totalMonthly =>
    match ppeItems.lookup itemKey with
    | none => .error "TypeError: item is undefined"
    | some item =>
      calcLoop workers workDays rest
        (results ++ [resultLine workers workDays item])
        (totalMonthly + (resultLine workers workDays item).qty)

/-- `displayResults(results, workers, workDays, totalMonthly)`. -/
def displayResults (page : Page) (results : List ResultLine)
    (workers workDays totalMonthly : Int) : Page :=
  { page with
    resultsTable := results
    resultsTotal := some ⟨workers, workDays, totalMonthly⟩
    placeholderDisplay := "none" }

/-- The text of the validation alert. -/
def selectAlert : String := "Please select at least one PPE item for calculation."

/-- The click handler of `calculateBtn`: the page it leaves and the texts it passes to
`alert`. `.error` is an uncaught exception. -/
def calculateClick (page : Page) : Except String (Page × List String) :=
  let workers := parsedOr page.workers 10
  let workDays := parsedOr page.workDays 22
  match selectedItems page with
  | none => .error "TypeError: selectedItems is undefined"
  | some selected =>
    if selected.length = 0 then
      .ok (page, [selectAlert])
    else
      match calcLoop workers workDays selected [] 0 with
      | .error e => .error e
      | .ok (results, totalMonthly) =>
        .ok (displayResults page results workers workDays totalMonthly, [])

/-- The click handler of `resetBtn`. -/
def resetClick (page : Page) : Page :=
  { page with
    workers := some 10
    workDays := some 22
    ppeType := "basic"
    ppeCustomSectionDisplay := "none"
    ppeItemBoxes :=
      page.ppeItemBoxes.map (fun cb => { cb with checked := ["mask", "gloves"].contains cb.value })
    resultsTable := []
    resultsTotal := none
    placeholderDisplay := "block" }

/-- A page on which nothing has been computed yet: the given field contents, preset and
checkboxes, an empty result table and total, the placeholder shown. -/
def Page.fresh (workers workDays : Option Int) (ppeType : String) (boxes : List Checkbox) :
    Page :=
  { workers := workers
    workDays := workDays
    ppeType := ppeType
    ppeCustomSectionDisplay := if ppeType = "custom" then "block" else "none"
    ppeItemBoxes := boxes
    resultsTable := []
    resultsTotal := none
    placeholderDisplay := "block" }

/-- The exact value of a decimal literal. -/
def Decimal.toRat (x : Decimal) : ℚ :=
  (x.mantissa : ℚ) / 10 ^ x.exponent

/-- The quantity as the specification words it: the ceiling of the exact product
`workers × rate × workDays`, with the rate taken at its exact decimal value. -/
def exactQty (workers : Int) (rate : Decimal) (workDays : Int) : Int :=
  ⌈(workers : ℚ) * rate.toRat * (workDays : ℚ)⌉

/-! ## Request handler and completion call -/

/-- The values a parsed JSON body can hold, as far as the handler distinguishes them. -/
inductive JsValue where
  | undefined
  | null
  | bool (b : Bool)
  | number (x : ℚ)
  | string (s : String)
  | object
  deriving DecidableEq

/-- Truthiness, as tested by `!message` and `if (openaiApiKey)`. -/
def JsValue.truthy : JsValue → Bool
  | .undefined => false
  | .null => false
  | .bool b => b
  | .number x => decide (x ≠ 0)
  | .string s => decide (s ≠ "")
  | .object => true

/-- An entry of `history`, with the two properties the code reads. -/
structure Turn where
  sender : JsValue
  text : JsValue
  deriving DecidableEq

/-- The `history` property of the body. `absent`: `undefined`, or any value that is falsy or
has no positive `length`. `array`: an array, whose `null` / `undefined` entries are `none`.
`other`: a value with a positive `length` and no `forEach`, such as a non-empty string. -/
inductive History where
  | absent
  | array (entries : List (Option Turn))
  | other
  deriving DecidableEq

/-- An element of the `messages` array. -/
structure ChatMessage where
  role : String
  content : JsValue
  deriving DecidableEq

/-- The argument of `openai.chat.completions.create`. -/
structure CompletionRequest where
  model : String
  messages : List ChatMessage
  max_tokens : Nat
  temperature : Decimal
  deriving DecidableEq

/-- The content of the fixed system message. -/
def systemPrompt : String :=
  "You are an AI Safety Assistant for PPE Marts, a Personal Protective Equipment affiliate website. \n" ++
  "          You provide expert advice on safety equipment, regulations (OSHA, ANSI, etc.), and product recommendations.\n" ++
  "          \n" ++
  "          Available PPE categories: \n" ++
  "          1. Respiratory (masks, respirators)\n" ++
  "          2. Head Protection (helmets, hard hats)\n" ++
  "          3. Eye Protection (goggles, glasses)\n" ++
  "          4. Hearing Protection (ear plugs, muffs)\n" ++
  "          5. Hand Protection (gloves)\n" ++
  "          6. Body Protection (vests, suits, gowns)\n" ++
  "          7. Foot Protection (safety shoes, boots)\n" ++
  "          8. Fall Protection (harnesses, lanyards)\n" ++
  "          \n" ++
  "          Guidelines:\n" ++
  "          - Always prioritize safety\n" ++
  "          - Mention relevant standards when applicable\n" ++
  "          - Recommend specific product types, not brands unless asked\n" ++
  "          - Be concise but thorough\n" ++
  "          - Include practical usage tips\n" ++
  "          - When recommending products, suggest the category first\n" ++
  "          \n" ++
  "          Format responses naturally and helpfully."

/-- The `history.forEach` loop; reading `sender` of a `null` entry throws. -/
def pushHistory : List (Option Turn) → List ChatMessage → Except String (List ChatMessage)
  | [], messages => .ok messages
  | none :: _, _ => .error "TypeError: msg is null"
  | some msg :: rest, messages =>
    pushHistory rest
      (messages ++ [⟨if msg.sender = .string "user" then "user" else "assistant", msg.text⟩])

/-- The construction of `messages` inside the `try` block of `generateAIResponse`. -/
def buildMessages (userMessage : JsValue) (history : History) :
    Except String (List ChatMessage) :=
  let messages : List ChatMessage := [⟨"system", .string systemPrompt⟩]
  let withHistory : Except String (List ChatMessage) :=
    match history with
    | .absent => .ok messages
    | .array entries =>
      if entries.length > 0 then pushHistory entries messages else .ok messages
    | .other => .error "TypeError: history.forEach is not a function"
  match withHistory with
  | .error e => .error e
  | .ok withTurns => .ok (withTurns ++ [⟨"user", userMessage⟩])

/-- The receiver of `userMessage.toLowerCase()`: only a string has the method. -/
def asString : JsValue → Except String String
  | .string s => .ok s
  | _ => .error "TypeError: userMessage.toLowerCase is not a function"

/-- What the handler obtains from outside the program: the environment variable, the
completion service (client construction, the `create` call and the read of
`choices[0].message.content`, any of which may throw), the two builtins and the clock. -/
structure Env where
  openaiApiKey : Option String
  complete : CompletionRequest → Except String String
  toLowerCase : String → String
  shuffle : List Product → List Product
  now : String

/-- The test `if (openaiApiKey)`: the variable is set and not the empty string. -/
def Env.configured (env : Env) : Bool :=
  match env.openaiApiKey with
  | none => false
  | some key => (JsValue.string key).truthy

/-- `generateAIResponse(userMessage, history, products)`; `products` is only passed on to
the fallback, which ignores it. `.error` is an exception leaving the function. -/
def generateAIResponse (env : Env) (userMessage : JsValue) (history : History) :
    Except String String :=
  let fallback : Except String String :=
    match asString userMessage with
    | .error e => .error e
    | .ok s => .ok (generateFallbackResponse env.toLowerCase s)
  if env.configured then
    let attempt : Except String String :=
      match buildMessages userMessage history with
      | .error e => .error e
      | .ok messages => env.complete ⟨"gpt-3.5-turbo", messages, 500, ⟨7, 1⟩⟩
    match attempt with
    | .ok text => .ok text
    | .error _ => fallback
  else
    fallback

/-- The request, as far as the handler reads it. `body = none`: `req.body` is `undefined`
or `null`, so that destructuring it throws. -/
structure RequestBody where
  message : JsValue
  history : History
  deriving DecidableEq

/-- The incoming request. -/
structure Request where
  method : String
  body : Option RequestBody
  deriving DecidableEq

/-- What is sent after `res.status(..)`: `.end()`, or `.json(..)` of one of two shapes. -/
inductive ResponseBody where
  | ended
  | error (error : String) (message : Option String)
  | reply (text : String) (recommendations : List Product) (timestamp : String)
  deriving DecidableEq

/-- The answer of the handler. -/
structure Response where
  status : Nat
  headers : List (String × String)
  body : ResponseBody
  deriving DecidableEq

/-- The functions of the module that the handler may invoke. -/
inductive Call where
  | getPPEProducts
  | generateAIResponse
  | getRelevantProducts
  deriving DecidableEq

/-- The four `res.setHeader` calls. -/
def corsHeaders : List (String × String) :=
  [ ("Access-Control-Allow-Credentials", "true"),
    ("Access-Control-Allow-Origin", "*"),
    ("Access-Control-Allow-Methods", "GET,OPTIONS,PATCH,DELETE,POST,PUT"),
    ("Access-Control-Allow-Headers",
      "X-CSRF-Token, X-Requested-With, Accept, Accept-Version, Content-Length, Content-MD5, Content-Type, Date, X-Api-Version") ]

/-- The `catch` block of the handler. -/
def internalError (e : String) : Response :=
  ⟨500, corsHeaders, .error "Failed to generate response" (some e)⟩

/-- `handler(req, res)`: the response sent, and the module functions invoked on the way,
in call order. -/
def handler (env : Env) (req : Request) : Response × List Call :=
  if req.method = "OPTIONS" then
    (⟨200, corsHeaders, .ended⟩, [])
  else if req.method ≠ "POST" then
    (⟨405, corsHeaders, .error "Method not allowed" none⟩, [])
  else
    match req.body with
    | none => (internalError "TypeError: cannot destructure req.body", [])
    | some body =>
      if !body.message.truthy then
        (⟨400, corsHeaders, .error "Message is required" none⟩, [])
      else
        let products := getPPEProducts
        match generateAIResponse env body.message body.history with
        | .error e => (internalError e, [.getPPEProducts, .generateAIResponse])
        | .ok response =>
          match asString body.message with
          | .error e =>
            (internalError e, [.getPPEProducts, .generateAIResponse, .getRelevantProducts])
          | .ok userMessage =>
            let recommendations :=
              getRelevantProducts env.toLowerCase env.shuffle userMessage products
            (⟨200, corsHeaders, .reply response (recommendations.take 4) env.now⟩,
              [.getPPEProducts, .generateAIResponse, .getRelevantProducts])

/-! # Properties -/

/-! ## Strings and the fallback responder -/

/-- `startsWith` decides the prefix relation. -/
theorem startsWith_iff (cs ks : List Char) : startsWith cs ks = true ↔ ks <+: cs := by
  induction cs generalizing ks with
  | nil => cases ks <;> simp [startsWith]
  | cons c cs ih =>
    cases ks with
    | nil => simp [startsWith]
    | cons k ks =>
      simp only [startsWith, Bool.and_eq_true, beq_iff_eq, ih, List.cons_prefix_cons]
      constructor <;> rintro ⟨h1, h2⟩ <;> exact ⟨h1.symm, h2⟩

/-- `includesChars` decides the contiguous-sublist relation. -/
theorem includesChars_iff (cs ks : List Char) : includesChars cs ks = true ↔ ks <:+: cs := by
  induction cs with
  | nil => simp [includesChars, startsWith_iff]
  | cons c cs ih =>
    simp only [includesChars, Bool.or_eq_true, startsWith_iff, ih, List.infix_cons_iff]

/-- `includes` is the substring relation on the characters of the two strings. -/
theorem includes_iff (message key : String) :
    includes message key = true ↔ key.data <:+: message.data :=
  includesChars_iff _ _

/-- Negative form of `includes_iff`. -/
theorem includes_eq_false_iff (message key : String) :
    includes message key = false ↔ ¬ key.data <:+: message.data := by
  rw [← includes_iff, Bool.not_eq_true]

/-- Entries whose key does not occur are skipped by the scan. -/
theorem scanResponses_append (message : String) (pre rest : List (String × String))
    (h : ∀ p ∈ pre, includes message p.1 = false) :
    scanResponses message (pre ++ rest) = scanResponses message rest := by
  induction pre with
  | nil => rfl
  | cons p pre ih =>
    obtain ⟨k, r⟩ := p
    have hk : includes message k = false := h (k, r) (List.mem_cons_self _ _)
    simp only [List.cons_append, scanResponses, hk]
    exact ih (fun q hq => h q (List.mem_cons_of_mem _ hq))

/-- The scan returns the text of the first entry whose key occurs. -/
theorem scanResponses_first (message : String) (tbl pre post : List (String × String))
    (key text : String) (hsplit : tbl = pre ++ (key, text) :: post)
    (hpre : ∀ p ∈ pre, includes message p.1 = false) (hkey : includes message key = true) :
    scanResponses message tbl = some text := by
  subst hsplit
  rw [scanResponses_append message pre _ hpre]
  simp only [scanResponses, hkey, if_true]

/-- C1. `generateFallbackResponse` scans the keys in declaration order (the twelve keywords,
then `default`): whenever the table splits as `pre ++ (key, text) :: post` with `key` a
substring of the lower-cased message and no key of `pre` a substring of it, the result is
`text`; when none of the twelve keywords is a substring, the result is the default text;
and when lower-casing is idempotent at `m`, the result for the lower-cased `m` is the
result for `m`. -/
theorem generateFallbackResponse_first_key (toLowerCase : String → String) (m : String) :
    responses.map Prod.fst =
      ["construction", "hard hat", "glove", "chemical glove", "respirator", "mask", "fall",
        "harness", "safety shoe", "goggle", "osha", "regulation", "default"] ∧
    (∀ pre key text post, responses = pre ++ (key, text) :: post →
      key.data <:+: (toLowerCase m).data →
      (∀ p ∈ pre, ¬ p.1.data <:+: (toLowerCase m).data) →
      generateFallbackResponse toLowerCase m = text) ∧
    ((∀ key ∈ ["construction", "hard hat", "glove", "chemical glove", "respirator", "mask",
        "fall", "harness", "safety shoe", "goggle", "osha", "regulation"],
        ¬ key.data <:+: (toLowerCase m).data) →
      generateFallbackResponse toLowerCase m = defaultResponse) ∧
    (toLowerCase (toLowerCase m) = toLowerCase m →
      generateFallbackResponse toLowerCase (toLowerCase m) =
        generateFallbackResponse toLowerCase m) := by
  refine ⟨rfl, ?_, ?_, ?_⟩
  · intro pre key text post hsplit hkey hpre
    have h := scanResponses_first (toLowerCase m) responses pre post key text hsplit
      (fun p hp => (includes_eq_false_iff _ _).2 (hpre p hp)) ((includes_iff _ _).2 hkey)
    show (match scanResponses (toLowerCase m) responses with
      | some response => response
      | none => defaultResponse) = text
    rw [h]
  · intro hnone
    have hsplit : responses = responses.take 12 ++ [("default", defaultResponse)] := rfl
    have hpre : ∀ p ∈ responses.take 12, includes (toLowerCase m) p.1 = false := by
      intro p hp
      refine (includes_eq_false_iff _ _).2 (hnone p.1 ?_)
      have hmem : p.1 ∈ (responses.take 12).map Prod.fst := List.mem_map_of_mem _ hp
      exact hmem
    show (match scanResponses (toLowerCase m) responses with
      | some response => response
      | none => defaultResponse) = defaultResponse
    rw [hsplit, scanResponses_append _ _ _ hpre]
    by_cases hd : includes (toLowerCase m) "default" = true
    · simp only [scanResponses, hd, if_true]
    · simp only [scanResponses, hd]
      rfl
  · intro hidem
    simp only [generateFallbackResponse, hidem]

/-- C1 at concrete messages: first match `glove` (before `chemical glove`), no match, and
case-insensitivity. -/
theorem generateFallbackResponse_first_key_witness :
    generateFallbackResponse asciiLower "Which GLOVE for chemical gloves?" =
      "Select gloves based on hazard: Chemical - nitrile/rubber, Cut - Kevlar/metal mesh, Heat - aluminized/leather, Cold - insulated, General - leather/canvas. Ensure proper fit and dexterity." ∧
    generateFallbackResponse asciiLower "Hello there" = defaultResponse ∧
    generateFallbackResponse asciiLower (asciiLower "OSHA Regulation") =
      generateFallbackResponse asciiLower "OSHA Regulation" :=
  ⟨(generateFallbackResponse_first_key asciiLower "Which GLOVE for chemical gloves?").2.1
      (responses.take 2) "glove" _ (responses.drop 3) rfl (by decide!) (by decide!),
   (generateFallbackResponse_first_key asciiLower "Hello there").2.2.1 (by decide!),
   (generateFallbackResponse_first_key asciiLower "OSHA Regulation").2.2.2 (by decide!)⟩

/-! ## The recommendation selector -/

/-- The collected categories are those of the entries whose keyword occurs. -/
theorem mem_collectCategories (message category : String) (tbl : List (String × String)) :
    category ∈ collectCategories message tbl ↔
      ∃ e ∈ tbl, e.1.data <:+: message.data ∧ e.2 = category := by
  induction tbl with
  | nil => simp [collectCategories]
  | cons e tbl ih =>
    obtain ⟨keyword, cat⟩ := e
    by_cases h : includes message keyword = true
    · have hi := (includes_iff message keyword).1 h
      simp only [collectCategories, h, if_true, List.mem_cons, ih, exists_eq_or_imp]
      constructor
      · rintro (rfl | hrest)
        · exact Or.inl ⟨hi, rfl⟩
        · exact Or.inr hrest
      · rintro (⟨_, rfl⟩ | hrest)
        · exact Or.inl rfl
        · exact Or.inr hrest
    · have hi : ¬ keyword.data <:+: message.data := fun hc => h ((includes_iff _ _).2 hc)
      have hf : includes message keyword = false := by simpa using h
      simp only [collectCategories, hf, Bool.false_eq_true, if_false, List.mem_cons, ih,
        exists_eq_or_imp]
      constructor
      · intro hrest
        exact Or.inr hrest
      · rintro (⟨hc, _⟩ | hrest)
        · exact absurd hc hi
        · exact hrest

/-- Some category is collected exactly when some keyword occurs. -/
theorem collectCategories_length_eq_zero (message : String) (tbl : List (String × String)) :
    (collectCategories message tbl).length = 0 ↔ ∀ e ∈ tbl, ¬ e.1.data <:+: message.data := by
  rw [List.length_eq_zero, List.eq_nil_iff_forall_not_mem]
  constructor
  · intro h e he hc
    exact h e.2 ((mem_collectCategories _ _ _).2 ⟨e, he, hc, rfl⟩)
  · intro h c hc
    obtain ⟨e, he, hi, _⟩ := (mem_collectCategories _ _ _).1 hc
    exact h e he hi

/-- C2. When some keyword of `keywordMap` is a substring of the lower-cased message,
`getRelevantProducts` returns the first four, in the order of `ps`, of the products whose
category is the category of a matching keyword. For the message
"I need a harness for fall protection at height" (whose lower-casing is the all-lower-case
text) over the built-in catalog, the result is the products of category `fall`, which are
products 4 and 5 in that order. -/
theorem getRelevantProducts_matched (toLowerCase : String → String)
    (shuffle : List Product → List Product) (m : String) (ps : List Product) :
    ((∃ e ∈ keywordMap, e.1.data <:+: (toLowerCase m).data) →
      getRelevantProducts toLowerCase shuffle m ps =
        (ps.filter (fun p => decide (∃ e ∈ keywordMap,
          e.1.data <:+: (toLowerCase m).data ∧ e.2 = p.category))).take 4) ∧
    (toLowerCase "I need a harness for fall protection at height" =
        "i need a harness for fall protection at height" →
      getRelevantProducts toLowerCase shuffle "I need a harness for fall protection at height"
          getPPEProducts = getPPEProducts.filter (fun p => decide (p.category = "fall")) ∧
      (getRelevantProducts toLowerCase shuffle "I need a harness for fall protection at height"
          getPPEProducts).map (fun p => p.id) = [4, 5]) := by
  constructor
  · intro hmatch
    have hne : ¬ (collectCategories (toLowerCase m) keywordMap).length = 0 := by
      rw [collectCategories_length_eq_zero]
      obtain ⟨e, he, hi⟩ := hmatch
      exact fun h => h e he hi
    simp only [getRelevantProducts, hne, if_false]
    congr 1
    apply List.filter_congr
    intro p _
    rw [Bool.eq_iff_iff, decide_eq_true_iff]
    exact List.elem_iff.trans (mem_collectCategories _ _ _)
  · intro hlow
    have hne : ¬ (collectCategories "i need a harness for fall protection at height"
        keywordMap).length = 0 := by decide!
    simp only [getRelevantProducts, hlow, hne, if_false]
    constructor <;> decide!

/-- C2 at a concrete message over the built-in catalog, with ASCII lower-casing. -/
theorem getRelevantProducts_matched_witness :
    getRelevantProducts asciiLower id "Steel toe BOOT" getPPEProducts =
      (getPPEProducts.filter (fun p => decide (∃ e ∈ keywordMap,
        e.1.data <:+: (asciiLower "Steel toe BOOT").data ∧ e.2 = p.category))).take 4 ∧
    (getRelevantProducts asciiLower id "I need a harness for fall protection at height"
        getPPEProducts).map (fun p => p.id) = [4, 5] :=
  ⟨(getRelevantProducts_matched asciiLower id "Steel toe BOOT" getPPEProducts).1 (by decide!),
   ((getRelevantProducts_matched asciiLower id "" []).2 (by decide!)).2⟩

/-- C3. Whatever order the shuffle produces (any permutation of `ps`), the result of
`getRelevantProducts` has at most four elements, each of them an element of `ps`; and when
no keyword of `keywordMap` occurs in the lower-cased message, the result is the first four
elements of the shuffled list. -/
theorem getRelevantProducts_bounded (toLowerCase : String → String)
    (shuffle : List Product → List Product) (m : String) (ps : List Product)
    (hshuffle : (shuffle ps).Perm ps) :
    (getRelevantProducts toLowerCase shuffle m ps).length ≤ 4 ∧
    (∀ p ∈ getRelevantProducts toLowerCase shuffle m ps, p ∈ ps) ∧
    ((∀ e ∈ keywordMap, ¬ e.1.data <:+: (toLowerCase m).data) →
      getRelevantProducts toLowerCase shuffle m ps = (shuffle ps).take 4) := by
  refine ⟨?_, ?_, ?_⟩
  · unfold getRelevantProducts
    dsimp only
    split <;> exact List.length_take_le _ _
  · intro p hp
    unfold getRelevantProducts at hp
    dsimp only at hp
    split at hp
    · exact hshuffle.mem_iff.1 (List.mem_of_mem_take hp)
    · exact List.mem_of_mem_filter (List.mem_of_mem_take hp)
  · intro hnone
    have hzero := (collectCategories_length_eq_zero (toLowerCase m) keywordMap).2 hnone
    simp only [getRelevantProducts, hzero, if_true]

/-- C3 at a concrete message without keyword, the shuffle reversing the catalog: the four
products returned are the last four of the catalog, in reverse order. -/
theorem getRelevantProducts_bounded_witness :
    (getRelevantProducts asciiLower List.reverse "Hello there" getPPEProducts).length ≤ 4 ∧
    (∀ p ∈ getRelevantProducts asciiLower List.reverse "Hello there" getPPEProducts,
      p ∈ getPPEProducts) ∧
    getRelevantProducts asciiLower List.reverse "Hello there" getPPEProducts =
      (List.reverse getPPEProducts).take 4 :=
  ⟨(getRelevantProducts_bounded asciiLower List.reverse "Hello there" getPPEProducts
      (List.reverse_perm _)).1,
   (getRelevantProducts_bounded asciiLower List.reverse "Hello there" getPPEProducts
      (List.reverse_perm _)).2.1,
   (getRelevantProducts_bounded asciiLower List.reverse "Hello there" getPPEProducts
      (List.reverse_perm _)).2.2 (by decide!)⟩

/-- Two outcomes of the shuffle give different recommendations for a message without
keyword: the result is not a function of the message and the catalog alone. -/
theorem getRelevantProducts_shuffle_dependent :
    getRelevantProducts asciiLower id "Hello there" getPPEProducts ≠
      getRelevantProducts asciiLower List.reverse "Hello there" getPPEProducts := by
  decide!

/-! ## Binary64 rounding -/

/-- For `1 ≤ n ≤ fuel`, `log2Fuel fuel n` is the index of the leading one bit of `n`. -/
theorem F64.log2Fuel_spec (fuel n : Nat) (h1 : 1 ≤ n) (h2 : n ≤ fuel) :
    2 ^ F64.log2Fuel fuel n ≤ n ∧ n < 2 ^ (F64.log2Fuel fuel n + 1) := by
  induction fuel generalizing n with
  | zero => omega
  | succ fuel ih =>
    by_cases hlt : n < 2
    · have hn : n = 1 := by omega
      subst hn
      simp [F64.log2Fuel]
    · have hge : 2 ≤ n := by omega
      obtain ⟨ihl, ihr⟩ := ih (n / 2) (by omega) (by omega)
      simp only [F64.log2Fuel, hlt, if_false]
      have e1 : 2 ^ (F64.log2Fuel fuel (n / 2) + 1) = 2 ^ F64.log2Fuel fuel (n / 2) * 2 :=
        Nat.pow_succ _ _
      have e2 : 2 ^ (F64.log2Fuel fuel (n / 2) + 1 + 1) =
          2 ^ (F64.log2Fuel fuel (n / 2) + 1) * 2 := Nat.pow_succ _ _
      constructor <;> omega

/-- The rounding core: for `N = D * q + r` with `r < D`, the chosen mantissa is `q` or
`q + 1`, lies within half a unit of `N / D`, and is even when `N / D` is exactly half-way. -/
theorem F64.nearestEven_spec (N D q r : Nat) (hdm : D * q + r = N) (hr : r < D) :
    q ≤ F64.nearestEven q r D ∧ F64.nearestEven q r D ≤ q + 1 ∧
    2 * (N - F64.nearestEven q r D * D) ≤ D ∧ 2 * (F64.nearestEven q r D * D - N) ≤ D ∧
    ((2 * (N - F64.nearestEven q r D * D) = D ∨ 2 * (F64.nearestEven q r D * D - N) = D) →
      F64.nearestEven q r D % 2 = 0) := by
  have hq1 : (q + 1) * D = D * q + D := by ring
  have hq0 : q * D = D * q := Nat.mul_comm _ _
  unfold F64.nearestEven
  split_ifs with h1 h2 h3
  · rw [hq0]
    refine ⟨le_rfl, by omega, by omega, by omega, ?_⟩
    intro h
    omega
  · rw [hq1]
    refine ⟨by omega, le_rfl, by omega, by omega, ?_⟩
    intro h
    omega
  · rw [hq0]
    exact ⟨le_rfl, by omega, by omega, by omega, fun _ => h3⟩
  · rw [hq1]
    exact ⟨by omega, le_rfl, by omega, by omega, fun _ => by omega⟩

/-- `roundToNearest` is rounding to nearest, ties to even, at 53 bits: the result is
`mant * u / 2 ^ e` with a 53-bit mantissa (`2 ^ 52 ≤ mant ≤ 2 ^ 53`), it differs from
`n / d` by at most half the unit `u / 2 ^ e`, and on an exact tie the mantissa is even. -/
theorem F64.roundToNearest_nearest (n d : Nat) (hn : 0 < n) (hd : 0 < d) :
    ∃ mant u e : Nat, F64.roundToNearest n d = ⟨mant * u, 2 ^ e⟩ ∧ 0 < u ∧
      2 ^ 52 ≤ mant ∧ mant ≤ 2 ^ 53 ∧
      2 * (n * 2 ^ e - mant * (d * u)) ≤ d * u ∧
      2 * (mant * (d * u) - n * 2 ^ e) ≤ d * u ∧
      ((2 * (n * 2 ^ e - mant * (d * u)) = d * u ∨
          2 * (mant * (d * u) - n * 2 ^ e) = d * u) → mant % 2 = 0) := by
  have hcond : ¬ (n = 0 ∨ d = 0) := by omega
  obtain ⟨hn1, hn2⟩ := F64.log2Fuel_spec n n hn le_rfl
  obtain ⟨hd1, hd2⟩ := F64.log2Fuel_spec d d hd le_rfl
  simp only [F64.roundToNearest, hcond, if_false]
  generalize F64.log2Fuel n n = ln at *
  generalize F64.log2Fuel d d = ld at *
  have hD0 : 0 < d * 2 ^ ln := Nat.mul_pos hd (Nat.pow_pos (by norm_num))
  have hlow : 2 ^ 52 * (d * 2 ^ ln) ≤ n * 2 ^ (53 + ld) := by
    have e1 : (2 : Nat) ^ (53 + ld) = 2 ^ 52 * 2 ^ (ld + 1) := by
      rw [← Nat.pow_add]; congr 1; omega
    calc 2 ^ 52 * (d * 2 ^ ln) ≤ 2 ^ 52 * (2 ^ (ld + 1) * n) :=
          Nat.mul_le_mul_left _ (Nat.mul_le_mul hd2.le hn1)
      _ = n * 2 ^ (53 + ld) := by rw [e1]; ring
  have hhigh : n * 2 ^ (53 + ld) < 2 ^ 54 * (d * 2 ^ ln) := by
    have e1 : (2 : Nat) ^ (53 + ld) = 2 ^ 53 * 2 ^ ld := Nat.pow_add _ _ _
    have e2 : (2 : Nat) ^ (ln + 1) = 2 ^ ln * 2 := Nat.pow_succ _ _
    calc n * 2 ^ (53 + ld) < 2 ^ (ln + 1) * 2 ^ (53 + ld) :=
          Nat.mul_lt_mul_of_pos_right hn2 (Nat.pow_pos (by norm_num))
      _ = 2 ^ 54 * (2 ^ ld * 2 ^ ln) := by rw [e1, e2]; ring
      _ ≤ 2 ^ 54 * (d * 2 ^ ln) :=
          Nat.mul_le_mul_left _ (Nat.mul_le_mul_right _ hd1)
  by_cases hc : n * 2 ^ (53 + ld) / (d * 2 ^ ln) < 2 ^ 53
  · simp only [hc, if_true, Nat.one_mul]
    obtain ⟨s1, s2, s3, s4, s5⟩ := F64.nearestEven_spec (n * 2 ^ (53 + ld)) (d * 2 ^ ln)
      (n * 2 ^ (53 + ld) / (d * 2 ^ ln)) (n * 2 ^ (53 + ld) % (d * 2 ^ ln))
      (Nat.div_add_mod _ _) (Nat.mod_lt _ hD0)
    have hq : 2 ^ 52 ≤ n * 2 ^ (53 + ld) / (d * 2 ^ ln) :=
      (Nat.le_div_iff_mul_le hD0).2 hlow
    exact ⟨_, 2 ^ ln, 53 + ld, rfl, Nat.pow_pos (by norm_num), le_trans hq s1,
      le_trans s2 hc, s3, s4, s5⟩
  · simp only [hc, if_false]
    have h2D0 : 0 < 2 * (d * 2 ^ ln) := by omega
    obtain ⟨s1, s2, s3, s4, s5⟩ := F64.nearestEven_spec (n * 2 ^ (53 + ld))
      (2 * (d * 2 ^ ln)) (n * 2 ^ (53 + ld) / (2 * (d * 2 ^ ln)))
      (n * 2 ^ (53 + ld) % (2 * (d * 2 ^ ln))) (Nat.div_add_mod _ _) (Nat.mod_lt _ h2D0)
    have h53 : 2 ^ 53 * (d * 2 ^ ln) ≤ n * 2 ^ (53 + ld) :=
      (Nat.le_div_iff_mul_le hD0).1 (Nat.le_of_not_lt hc)
    have hq : 2 ^ 52 ≤ n * 2 ^ (53 + ld) / (2 * (d * 2 ^ ln)) := by
      rw [Nat.le_div_iff_mul_le h2D0]
      calc 2 ^ 52 * (2 * (d * 2 ^ ln)) = 2 ^ 53 * (d * 2 ^ ln) := by ring
        _ ≤ n * 2 ^ (53 + ld) := h53
    have hq' : n * 2 ^ (53 + ld) / (2 * (d * 2 ^ ln)) < 2 ^ 53 := by
      rw [Nat.div_lt_iff_lt_mul h2D0]
      calc n * 2 ^ (53 + ld) < 2 ^ 54 * (d * 2 ^ ln) := hhigh
        _ = 2 ^ 53 * (2 * (d * 2 ^ ln)) := by ring
    have hu : d * (2 * 2 ^ ln) = 2 * (d * 2 ^ ln) := by ring
    refine ⟨_, 2 * 2 ^ ln, 53 + ld, rfl, by positivity, le_trans hq s1, le_trans s2 hq', ?_⟩
    rw [hu]
    exact ⟨s3, s4, s5⟩

/-- Rounding a positive fraction gives a positive value: no result is flushed to zero. -/
theorem F64.roundToNearest_pos (n d : Nat) (hn : 0 < n) (hd : 0 < d) :
    0 < (F64.roundToNearest n d).num ∧ 0 < (F64.roundToNearest n d).den := by
  have hcond : ¬ (n = 0 ∨ d = 0) := by omega
  obtain ⟨hn1, _⟩ := F64.log2Fuel_spec n n hn le_rfl
  obtain ⟨_, hd2⟩ := F64.log2Fuel_spec d d hd le_rfl
  simp only [F64.roundToNearest, hcond, if_false]
  generalize F64.log2Fuel n n = ln at *
  generalize F64.log2Fuel d d = ld at *
  have hD0 : 0 < d * 2 ^ ln := Nat.mul_pos hd (Nat.pow_pos (by norm_num))
  have hle : d * 2 ^ ln ≤ n * 2 ^ (53 + ld) := by
    calc d * 2 ^ ln ≤ 2 ^ (ld + 1) * n := Nat.mul_le_mul hd2.le hn1
      _ ≤ 2 ^ (53 + ld) * n :=
        Nat.mul_le_mul_right _ (Nat.pow_le_pow_right (by norm_num) (by omega))
      _ = n * 2 ^ (53 + ld) := Nat.mul_comm _ _
  refine ⟨?_, Nat.pow_pos (by norm_num)⟩
  by_cases hc : n * 2 ^ (53 + ld) / (d * 2 ^ ln) < 2 ^ 53
  · simp only [hc, if_true, Nat.one_mul]
    have hq : 0 < n * 2 ^ (53 + ld) / (d * 2 ^ ln) := Nat.div_pos hle hD0
    apply Nat.mul_pos _ (Nat.pow_pos (by norm_num))
    unfold F64.nearestEven
    split_ifs <;> omega
  · simp only [hc, if_false]
    have h53 : 2 ^ 53 ≤ n * 2 ^ (53 + ld) / (d * 2 ^ ln) := Nat.le_of_not_lt hc
    have hmul : 2 ^ 53 * (d * 2 ^ ln) ≤ n * 2 ^ (53 + ld) :=
      (Nat.le_div_iff_mul_le hD0).1 h53
    have hle2 : 2 * (d * 2 ^ ln) ≤ n * 2 ^ (53 + ld) :=
      le_trans (Nat.mul_le_mul_right _ (by norm_num)) hmul
    have hq : 0 < n * 2 ^ (53 + ld) / (2 * (d * 2 ^ ln)) :=
      Nat.div_pos hle2 (by omega)
    apply Nat.mul_pos _ (Nat.mul_pos (by norm_num) (Nat.pow_pos (by norm_num)))
    unfold F64.nearestEven
    split_ifs <;> omega

/-- The product of two positive numbers is positive. -/
theorem F64.mul_pos (a b : F64) (ha : 0 < a.num ∧ 0 < a.den) (hb : 0 < b.num ∧ 0 < b.den) :
    0 < (F64.mul a b).num ∧ 0 < (F64.mul a b).den :=
  F64.roundToNearest_pos _ _ (Nat.mul_pos ha.1 hb.1) (Nat.mul_pos ha.2 hb.2)

/-- `Math.ceil` of a positive number is at least one. -/
theorem F64.one_le_ceil (a : F64) (ha : 0 < a.num ∧ 0 < a.den) : 1 ≤ F64.ceil a := by
  unfold F64.ceil
  rw [Nat.le_div_iff_mul_le ha.2]
  omega

/-- The binary64 values of the literals `0.1` and `0.005`, and of the integer `3`. -/
theorem F64.literal_values :
    F64.ofDecimal ⟨1, 1⟩ = ⟨3602879701896397 * 2, 2 ^ 56⟩ ∧
    F64.ofDecimal ⟨5, 3⟩ = ⟨5764607523034235 * 4, 2 ^ 62⟩ ∧
    F64.ofNat 3 = ⟨3 * 2 ^ 53, 2 ^ 53⟩ := by
  decide!

/-! ## The requirement calculator -/

/-- For positive operands and a positive rate the computed quantity is at least one. -/
theorem one_le_monthlyQty (workers workDays : Int) (rate : Decimal)
    (hw : 0 < workers) (hd : 0 < workDays) (hr : 0 < rate.mantissa) :
    1 ≤ monthlyQty workers rate workDays := by
  have hsign : 0 ≤ workers * workDays := le_of_lt (Int.mul_pos hw hd)
  have hwn : 0 < workers.natAbs := Int.natAbs_pos.2 (ne_of_gt hw)
  have hdn : 0 < workDays.natAbs := Int.natAbs_pos.2 (ne_of_gt hd)
  have h1 := F64.roundToNearest_pos workers.natAbs 1 hwn Nat.one_pos
  have h2 := F64.roundToNearest_pos rate.mantissa (10 ^ rate.exponent) hr
    (Nat.pow_pos (by norm_num))
  have h3 := F64.roundToNearest_pos workDays.natAbs 1 hdn Nat.one_pos
  have hpos := F64.mul_pos _ _ (F64.mul_pos _ _ h1 h2) h3
  have hceil := F64.one_le_ceil _ hpos
  simp only [monthlyQty, hsign, if_true]
  exact_mod_cast hceil

/-- The loop over keys that are all defined in `ppeItems`: one line per key, appended in
the order of the keys, and the total increased by the quantities of these lines. -/
theorem calcLoop_defined (workers workDays : Int) (keys : List String)
    (hkeys : ∀ key ∈ keys, (ppeItems.lookup key).isSome = true)
    (results : List ResultLine) (totalMonthly : Int) :
    calcLoop workers workDays keys results totalMonthly =
      .ok (results ++ (keys.filterMap (fun key => ppeItems.lookup key)).map
            (resultLine workers workDays),
          totalMonthly + ((keys.filterMap (fun key => ppeItems.lookup key)).map
            (fun item => (resultLine workers workDays item).qty)).sum) := by
  induction keys generalizing results totalMonthly with
  | nil => simp [calcLoop]
  | cons key keys ih =>
    have hk := hkeys key (List.mem_cons_self _ _)
    obtain ⟨item, hitem⟩ := Option.isSome_iff_exists.1 hk
    have hrest : ∀ k ∈ keys, (ppeItems.lookup k).isSome = true :=
      fun k hk2 => hkeys k (List.mem_cons_of_mem _ hk2)
    simp only [calcLoop, hitem, ih hrest, List.filterMap_cons, List.map_cons, List.sum_cons,
      List.append_assoc, List.singleton_append, Int.add_assoc]

/-- A defined key yields exactly one line: the lines are as many as the keys. -/
theorem filterMap_lookup_length (keys : List String)
    (hkeys : ∀ key ∈ keys, (ppeItems.lookup key).isSome = true) :
    (keys.filterMap (fun key => ppeItems.lookup key)).length = keys.length := by
  induction keys with
  | nil => rfl
  | cons key keys ih =>
    obtain ⟨item, hitem⟩ := Option.isSome_iff_exists.1 (hkeys key (List.mem_cons_self _ _))
    simp only [List.filterMap_cons, hitem, List.length_cons,
      ih (fun k hk => hkeys k (List.mem_cons_of_mem _ hk))]

/-- The calculate handler on a non-empty selection of defined keys: it does not throw and
displays one line per selected key, in selection order, each with the quantity
`Math.ceil(workers * rate * workDays)` of binary64 arithmetic, and their sum as total. -/
theorem calculateClick_lines (page : Page) (keys : List String)
    (hsel : selectedItems page = some keys) (hne : keys ≠ [])
    (hkeys : ∀ key ∈ keys, (ppeItems.lookup key).isSome = true) :
    calculateClick page =
      .ok (displayResults page
        ((keys.filterMap (fun key => ppeItems.lookup key)).map
          (resultLine (parsedOr page.workers 10) (parsedOr page.workDays 22)))
        (parsedOr page.workers 10) (parsedOr page.workDays 22)
        (((keys.filterMap (fun key => ppeItems.lookup key)).map
          (fun item => (resultLine (parsedOr page.workers 10)
            (parsedOr page.workDays 22) item).qty)).sum), []) := by
  have hlen : ¬ keys.length = 0 := fun h => hne (List.length_eq_zero.1 h)
  simp only [calculateClick, hsel, hlen, if_false, calcLoop_defined _ _ keys hkeys,
    List.nil_append, Int.zero_add]

/-- The worked example of the specification: 10 workers, 22 days, preset `basic` gives the
quantities 440, 440, 110 and the total 990. -/
theorem calculateClick_basic_example :
    calculateClick (Page.fresh (some 10) (some 22) "basic" []) =
      .ok (displayResults (Page.fresh (some 10) (some 22) "basic" [])
        [ ⟨"Face Masks", "Surgical/N95 masks", 440, "pieces", ⟨2, 0⟩⟩,
          ⟨"Gloves", "Disposable latex/nitrile gloves", 440, "pairs", ⟨2, 0⟩⟩,
          ⟨"Disposable Gowns", "Protective gowns/coveralls", 110, "pieces", ⟨5, 1⟩⟩ ]
        10 22 990, []) := by
  decide!

/-- A key that `lookup` resolves is a key of the table, bound to the value found. -/
theorem mem_of_lookup_eq_some {β : Type} (tbl : List (String × β)) (key : String) (v : β)
    (h : tbl.lookup key = some v) : (key, v) ∈ tbl := by
  induction tbl with
  | nil => simp [List.lookup] at h
  | cons e tbl ih =>
    obtain ⟨k, b⟩ := e
    by_cases hk : key = k
    · subst hk
      simp only [List.lookup, beq_self_eq_true, Option.some.injEq] at h
      subst h
      exact List.mem_cons_self _ _
    · have hb : (key == k) = false := by simpa using hk
      simp only [List.lookup, hb] at h
      exact List.mem_cons_of_mem _ (ih h)

/-- C4. The displayed quantity is not always the ceiling of the exact product: for
3 workers, 10 days and the preset `full`, the handler displays 7 face shields and 4 goggles
and the total 146, because the binary64 products `3 * 0.2 * 10` and `3 * 0.1 * 10` lie just
above 6 and 3; the ceilings of the exact products are 60, 15, 6 and 3 (total 144). -/
theorem calculateClick_rounding_divergence :
    calculateClick (Page.fresh (some 3) (some 10) "full" []) =
      .ok (displayResults (Page.fresh (some 3) (some 10) "full" [])
        [ ⟨"Face Masks", "Surgical/N95 masks", 60, "pieces", ⟨2, 0⟩⟩,
          ⟨"Gloves", "Disposable latex/nitrile gloves", 60, "pairs", ⟨2, 0⟩⟩,
          ⟨"Disposable Gowns", "Protective gowns/coveralls", 15, "pieces", ⟨5, 1⟩⟩,
          ⟨"Face Shields", "Reusable face shields", 7, "pieces", ⟨2, 1⟩⟩,
          ⟨"Safety Goggles", "Protective eyewear", 4, "pairs", ⟨1, 1⟩⟩ ]
        3 10 146, []) ∧
    exactQty 3 ⟨2, 0⟩ 10 = 60 ∧ exactQty 3 ⟨5, 1⟩ 10 = 15 ∧
    exactQty 3 ⟨2, 1⟩ 10 = 6 ∧ exactQty 3 ⟨1, 1⟩ 10 = 3 := by
  refine ⟨by decide!, ?_, ?_, ?_, ?_⟩ <;>
    simp only [exactQty, Decimal.toRat, Int.ceil_eq_iff] <;> norm_num

/-- C5. Every rate of `ppeItems` is strictly positive; for positive `workers` and
`workDays` and every key defined in `ppeItems` the computed quantity
`Math.ceil(workers * rate * workDays)` is an integer that is at least 1; and 1 worker,
1 day, selection `[helmet]` gives the quantity 1 and the total 1. -/
theorem monthlyQty_at_least_one :
    (∀ key item, ppeItems.lookup key = some item → 0 < item.perWorkerPerDay.toRat) ∧
    (∀ (workers workDays : Int) key item, 0 < workers → 0 < workDays →
      ppeItems.lookup key = some item →
      1 ≤ monthlyQty workers item.perWorkerPerDay workDays) ∧
    calculateClick (Page.fresh (some 1) (some 1) "custom" [⟨"helmet", true⟩]) =
      .ok (displayResults (Page.fresh (some 1) (some 1) "custom" [⟨"helmet", true⟩])
        [⟨"Safety Helmet", "Hard hats/helmets", 1, "pieces", ⟨1, 2⟩⟩] 1 1 1, []) := by
  have hall : ∀ e ∈ ppeItems, 0 < e.2.perWorkerPerDay.mantissa := by decide
  refine ⟨?_, ?_, by decide!⟩
  · intro key item hitem
    have hm := hall (key, item) (mem_of_lookup_eq_some _ _ _ hitem)
    have hm' : (0 : ℚ) < (item.perWorkerPerDay.mantissa : ℚ) := by exact_mod_cast hm
    unfold Decimal.toRat
    positivity
  · intro workers workDays key item hw hd hitem
    exact one_le_monthlyQty workers workDays _ hw hd
      (hall (key, item) (mem_of_lookup_eq_some _ _ _ hitem))

/-- C5 at 7 workers, 3 days and the key `shoes` (rate 0.005): the quantity is at least 1. -/
theorem monthlyQty_at_least_one_witness :
    0 < (⟨5, 3⟩ : Decimal).toRat ∧ 1 ≤ monthlyQty 7 ⟨5, 3⟩ 3 :=
  ⟨monthlyQty_at_least_one.1 "shoes" ⟨"Safety Shoes", "Steel-toe boots", "pairs", ⟨5, 3⟩⟩
      (by decide!),
   monthlyQty_at_least_one.2.1 7 3 "shoes" ⟨"Safety Shoes", "Steel-toe boots", "pairs", ⟨5, 3⟩⟩
      (by decide) (by decide) (by decide!)⟩

/-- C6. When the selected equipment list is empty, whatever the two number fields hold,
the calculate handler does not throw, passes the validation message to `alert` and leaves
the page, its result table and total included, exactly as it was. -/
theorem calculateClick_empty_selection (page : Page) (hsel : selectedItems page = some []) :
    calculateClick page = .ok (page, [selectAlert]) ∧
    selectAlert = "Please select at least one PPE item for calculation." := by
  refine ⟨?_, rfl⟩
  simp only [calculateClick, hsel, List.length_nil, if_true]

/-- C6 on a page showing the results of an earlier computation, preset `custom`, no box
checked and unparsable number fields. -/
theorem calculateClick_empty_selection_witness :
    calculateClick
        ⟨none, some (-4), "custom", "block", [⟨"mask", false⟩, ⟨"gloves", false⟩],
          [⟨"Face Masks", "Surgical/N95 masks", 440, "pieces", ⟨2, 0⟩⟩], some ⟨10, 22, 440⟩,
          "none"⟩ =
      .ok (⟨none, some (-4), "custom", "block", [⟨"mask", false⟩, ⟨"gloves", false⟩],
          [⟨"Face Masks", "Surgical/N95 masks", 440, "pieces", ⟨2, 0⟩⟩], some ⟨10, 22, 440⟩,
          "none"⟩, [selectAlert]) :=
  (calculateClick_empty_selection _ (by decide!)).1

/-- The selection is empty exactly through the preset `custom` with no box checked. -/
theorem selectedItems_custom_unchecked (page : Page) (hcustom : page.ppeType = "custom")
    (hboxes : ∀ cb ∈ page.ppeItemBoxes, cb.checked = false) :
    selectedItems page = some [] := by
  have hfilter : page.ppeItemBoxes.filter (fun cb => cb.checked) = [] := by
    rw [List.filter_eq_nil_iff]
    intro cb hcb
    simp [hboxes cb hcb]
  simp only [selectedItems, hcustom, if_true, hfilter, List.map_nil]

/-! ## The request handler and the completion call -/

/-- On a string message `generateAIResponse` returns normally: it never throws. -/
theorem generateAIResponse_string_ok (env : Env) (m : String) (h : History) :
    ∃ text, generateAIResponse env (.string m) h = .ok text := by
  unfold generateAIResponse
  simp only [asString]
  split
  · split
    · exact ⟨_, rfl⟩
    · exact ⟨_, rfl⟩
  · exact ⟨_, rfl⟩

/-- The decision list of the handler on requests whose body is an object. It answers
`OPTIONS` with status 200 and no body; any other method than `POST` with status 405 and an
error field; a `POST` whose body has no message (the property is absent, the empty string,
or any other falsy value) with status 400 and an error field. In these cases no function
of the module is invoked. A `POST` whose message is a non-empty string is answered with
status 200, hence never with 400 or 405. -/
theorem handler_rejections (env : Env) (req : Request) :
    (req.method = "OPTIONS" → handler env req = (⟨200, corsHeaders, .ended⟩, [])) ∧
    (req.method ≠ "OPTIONS" → req.method ≠ "POST" →
      handler env req = (⟨405, corsHeaders, .error "Method not allowed" none⟩, [])) ∧
    (∀ body, req.method = "POST" → req.body = some body →
      (body.message = .undefined ∨ body.message = .string "" ∨ body.message.truthy = false) →
      handler env req = (⟨400, corsHeaders, .error "Message is required" none⟩, [])) ∧
    (∀ body s, req.method = "POST" → req.body = some body → body.message = .string s →
      s ≠ "" →
      (handler env req).1.status = 200 ∧ (handler env req).1.status ≠ 400 ∧
      (handler env req).1.status ≠ 405 ∧
      (handler env req).2 = [.getPPEProducts, .generateAIResponse, .getRelevantProducts]) := by
  refine ⟨?_, ?_, ?_, ?_⟩
  · intro hm
    simp only [handler, hm, if_true]
  · intro h1 h2
    simp only [handler, h1, h2, if_false, ne_eq, not_false_eq_true, if_true]
  · intro body hm hb hmsg
    have hfalsy : body.message.truthy = false := by
      rcases hmsg with h | h | h
      · rw [h]; rfl
      · rw [h]; rfl
      · exact h
    have hne : ¬ ("POST" = "OPTIONS") := by decide
    simp only [handler, hm, hne, if_false, ne_eq, not_true_eq_false, hb, hfalsy, Bool.not_false,
      if_true]
  · intro body s hm hb hmsg hs
    have hne : ¬ ("POST" = "OPTIONS") := by decide
    have htruthy : (JsValue.string s).truthy = true := by
      simp only [JsValue.truthy, ne_eq, hs, not_false_eq_true, decide_True]
    obtain ⟨text, htext⟩ := generateAIResponse_string_ok env s body.history
    have hstatus : handler env req =
        (⟨200, corsHeaders, .reply text
            ((getRelevantProducts env.toLowerCase env.shuffle s getPPEProducts).take 4) env.now⟩,
          [.getPPEProducts, .generateAIResponse, .getRelevantProducts]) := by
      simp only [handler, hm, hne, if_false, ne_eq, not_true_eq_false, hb, hmsg, htruthy,
        Bool.not_true, Bool.false_eq_true, htext, asString]
    rw [hstatus]
    exact ⟨rfl, by simp, by simp, rfl⟩

/-- The decision list at four concrete requests: a preflight, a `GET`, a `POST` whose body
has no message and a `POST` with a message. -/
theorem handler_rejections_witness :
    handler ⟨none, fun _ => .error "offline", asciiLower, id, "t"⟩ ⟨"OPTIONS", none⟩ =
      (⟨200, corsHeaders, .ended⟩, []) ∧
    handler ⟨none, fun _ => .error "offline", asciiLower, id, "t"⟩ ⟨"GET", none⟩ =
      (⟨405, corsHeaders, .error "Method not allowed" none⟩, []) ∧
    handler ⟨none, fun _ => .error "offline", asciiLower, id, "t"⟩
        ⟨"POST", some ⟨.undefined, .absent⟩⟩ =
      (⟨400, corsHeaders, .error "Message is required" none⟩, []) ∧
    (handler ⟨none, fun _ => .error "offline", asciiLower, id, "t"⟩
        ⟨"POST", some ⟨.string "gloves?", .absent⟩⟩).1.status = 200 :=
  ⟨(handler_rejections _ _).1 rfl,
   (handler_rejections _ _).2.1 (by decide) (by decide),
   (handler_rejections _ _).2.2.1 _ rfl rfl (Or.inl rfl),
   ((handler_rejections _ _).2.2.2 _ "gloves?" rfl rfl rfl (by decide)).1⟩

/-- C7. A `POST` without any body carries no message, yet it is not answered 400: the
destructuring of `req.body` throws before the `!message` guard is reached, and the `catch`
block answers status 500 with the error `Failed to generate response`. No function of the
module is invoked. The same request with an empty body object is answered 400 with
`Message is required`, which is what the guard is there for. -/
theorem handler_missing_body (env : Env) :
    handler env ⟨"POST", none⟩ =
      (⟨500, corsHeaders,
        .error "Failed to generate response" (some "TypeError: cannot destructure req.body")⟩,
        []) ∧
    (handler env ⟨"POST", none⟩).1.status ≠ 400 ∧
    handler env ⟨"POST", some ⟨.undefined, .absent⟩⟩ =
      (⟨400, corsHeaders, .error "Message is required" none⟩, []) := by
  have hmissing : handler env ⟨"POST", none⟩ =
      (⟨500, corsHeaders,
        .error "Failed to generate response" (some "TypeError: cannot destructure req.body")⟩,
        []) := by
    simp only [handler]
    rfl
  refine ⟨hmissing, ?_, ?_⟩
  · rw [hmissing]
    simp
  · simp only [handler]
    rfl

/-- C8. On a string message `m`: when a credential is configured, the request is built and
the completion call succeeds, `generateAIResponse` returns the generated text unchanged;
when no credential is configured, or building the request from the history throws, or the
call fails, it returns `generateFallbackResponse(m)`. In every case it returns normally:
no failure of the completion service reaches the caller. -/
theorem generateAIResponse_fallback (env : Env) (m : String) (h : History) :
    (∀ messages text, env.configured = true → buildMessages (.string m) h = .ok messages →
      env.complete ⟨"gpt-3.5-turbo", messages, 500, ⟨7, 1⟩⟩ = .ok text →
      generateAIResponse env (.string m) h = .ok text) ∧
    (env.configured = false →
      generateAIResponse env (.string m) h =
        .ok (generateFallbackResponse env.toLowerCase m)) ∧
    (∀ messages e, buildMessages (.string m) h = .ok messages →
      env.complete ⟨"gpt-3.5-turbo", messages, 500, ⟨7, 1⟩⟩ = .error e →
      generateAIResponse env (.string m) h =
        .ok (generateFallbackResponse env.toLowerCase m)) ∧
    (∀ e, buildMessages (.string m) h = .error e →
      generateAIResponse env (.string m) h =
        .ok (generateFallbackResponse env.toLowerCase m)) ∧
    (∃ text, generateAIResponse env (.string m) h = .ok text) := by
  refine ⟨?_, ?_, ?_, ?_, generateAIResponse_string_ok env m h⟩
  · intro messages text hc hb hcall
    simp only [generateAIResponse, hc, if_true, hb, hcall]
  · intro hc
    simp only [generateAIResponse, hc, Bool.false_eq_true, if_false, asString]
  · intro messages e hb hcall
    cases hc : env.configured
    · simp only [generateAIResponse, hc, Bool.false_eq_true, if_false, asString]
    · simp only [generateAIResponse, hc, if_true, hb, hcall, asString]
  · intro e hb
    cases hc : env.configured
    · simp only [generateAIResponse, hc, Bool.false_eq_true, if_false, asString]
    · simp only [generateAIResponse, hc, if_true, hb, asString]

/-- C8 at concrete environments: a configured service that answers, no credential, a
configured service that fails, and a history with a `null` entry. -/
theorem generateAIResponse_fallback_witness :
    generateAIResponse ⟨some "sk-test", fun _ => .ok "Wear a harness.", asciiLower, id, "t"⟩
        (.string "Working at height") .absent = .ok "Wear a harness." ∧
    generateAIResponse ⟨some "", fun _ => .ok "Wear a harness.", asciiLower, id, "t"⟩
        (.string "Working at height") .absent =
      .ok (generateFallbackResponse asciiLower "Working at height") ∧
    generateAIResponse ⟨some "sk-test", fun _ => .error "timeout", asciiLower, id, "t"⟩
        (.string "Working at height") .absent =
      .ok (generateFallbackResponse asciiLower "Working at height") ∧
    generateAIResponse ⟨some "sk-test", fun _ => .ok "Wear a harness.", asciiLower, id, "t"⟩
        (.string "Working at height") (.array [none]) =
      .ok (generateFallbackResponse asciiLower "Working at height") :=
  ⟨(generateAIResponse_fallback
      ⟨some "sk-test", fun _ => .ok "Wear a harness.", asciiLower, id, "t"⟩
      "Working at height" .absent).1 _ _ rfl rfl rfl,
   (generateAIResponse_fallback
      ⟨some "", fun _ => .ok "Wear a harness.", asciiLower, id, "t"⟩
      "Working at height" .absent).2.1 rfl,
   (generateAIResponse_fallback
      ⟨some "sk-test", fun _ => .error "timeout", asciiLower, id, "t"⟩
      "Working at height" .absent).2.2.1 _ "timeout" rfl rfl,
   (generateAIResponse_fallback
      ⟨some "sk-test", fun _ => .ok "Wear a harness.", asciiLower, id, "t"⟩
      "Working at height" (.array [none])).2.2.2.1 "TypeError: msg is null" rfl⟩

/-- The history loop on entries that are all turns: one message per turn, appended in
order, `user` for the sender `user` and `assistant` for any other sender. -/
theorem pushHistory_turns (turns : List Turn) (messages : List ChatMessage) :
    pushHistory (turns.map some) messages =
      .ok (messages ++ turns.map (fun t =>
        (⟨if t.sender = .string "user" then "user" else "assistant", t.text⟩ : ChatMessage))) := by
  induction turns generalizing messages with
  | nil => simp [pushHistory]
  | cons t turns ih =>
    simp only [List.map_cons, pushHistory, ih, List.append_assoc, List.singleton_append]

/-- C9. For a history that is absent, empty, or a sequence of turns, the message list is
the system instruction, then one entry per turn in order (role `user` exactly for the
sender `user`, `assistant` otherwise, the turn's text as content), then the entry with role
`user` and content `m`; it has as many entries as there are turns, plus 2. With a
credential configured this list is what is passed to the completion service: the result
of `generateAIResponse` is determined by the service's answer to that request. -/
theorem buildMessages_shape (m : String) (turns : List Turn) :
    buildMessages (.string m) .absent =
      .ok [⟨"system", .string systemPrompt⟩, ⟨"user", .string m⟩] ∧
    buildMessages (.string m) (.array (turns.map some)) =
      .ok (⟨"system", .string systemPrompt⟩ ::
        (turns.map (fun t =>
          (⟨if t.sender = .string "user" then "user" else "assistant", t.text⟩ : ChatMessage))
          ++ [⟨"user", .string m⟩])) ∧
    (⟨"system", .string systemPrompt⟩ ::
        (turns.map (fun t =>
          (⟨if t.sender = .string "user" then "user" else "assistant", t.text⟩ : ChatMessage))
          ++ [(⟨"user", .string m⟩ : ChatMessage)])).length = turns.length + 2 ∧
    (∀ env : Env, env.configured = true →
      generateAIResponse env (.string m) (.array (turns.map some)) =
        match env.complete ⟨"gpt-3.5-turbo",
            ⟨"system", .string systemPrompt⟩ ::
              (turns.map (fun t =>
                (⟨if t.sender = .string "user" then "user" else "assistant", t.text⟩ :
                  ChatMessage)) ++ [⟨"user", .string m⟩]), 500, ⟨7, 1⟩⟩ with
        | .ok text => .ok text
        | .error _ => .ok (generateFallbackResponse env.toLowerCase m)) := by
  have hbuild : buildMessages (.string m) (.array (turns.map some)) =
      .ok (⟨"system", .string systemPrompt⟩ ::
        (turns.map (fun t =>
          (⟨if t.sender = .string "user" then "user" else "assistant", t.text⟩ : ChatMessage))
          ++ [⟨"user", .string m⟩])) := by
    cases turns with
    | nil => rfl
    | cons t turns =>
      simp only [buildMessages, List.map_cons, List.length_cons, List.length_map, gt_iff_lt,
        Nat.zero_lt_succ, if_true, ← List.map_cons, pushHistory_turns, List.singleton_append,
        List.cons_append, List.nil_append]
  refine ⟨rfl, hbuild, ?_, ?_⟩
  · simp only [List.length_cons, List.length_append, List.length_map, List.length_singleton,
      List.length_nil]
  · intro env hc
    simp only [generateAIResponse, hc, if_true, hbuild, asString]

/-- C9 on a history of two turns, with a service that echoes the roles it receives. -/
theorem buildMessages_shape_witness :
    generateAIResponse
        ⟨some "sk-test",
          fun request => .ok (String.intercalate "," (request.messages.map (fun c => c.role))),
          asciiLower, id, "t"⟩
        (.string "And gloves?")
        (.array [some ⟨.string "user", .string "Which mask?"⟩,
          some ⟨.string "bot", .string "An N95."⟩]) =
      .ok "system,user,assistant,user" :=
  (buildMessages_shape "And gloves?"
      [⟨.string "user", .string "Which mask?"⟩, ⟨.string "bot", .string "An N95."⟩]).2.2.2
    ⟨some "sk-test",
      fun request => .ok (String.intercalate "," (request.messages.map (fun c => c.role))),
      asciiLower, id, "t"⟩ rfl

/-! ## The reset handler -/

/-- The calculate handler never touches the checkboxes. -/
theorem calculateClick_boxes (page result : Page) (alerts : List String)
    (h : calculateClick page = .ok (result, alerts)) :
    result.ppeItemBoxes = page.ppeItemBoxes := by
  unfold calculateClick at h
  dsimp only at h
  split at h
  · exact absurd h (by simp)
  · split at h
    · simp only [Except.ok.injEq, Prod.mk.injEq] at h
      rw [← h.1]
    · split at h
      · exact absurd h (by simp)
      · simp only [Except.ok.injEq, Prod.mk.injEq] at h
        rw [← h.1]
        rfl

/-- The reset handler only reads the `value` attributes of the checkboxes. -/
theorem resetClick_congr (page other : Page)
    (hboxes : page.ppeItemBoxes.map (fun cb => cb.value) =
      other.ppeItemBoxes.map (fun cb => cb.value)) :
    resetClick page = resetClick other := by
  have hmap : page.ppeItemBoxes.map
        (fun cb => ({ cb with checked := ["mask", "gloves"].contains cb.value } : Checkbox)) =
      other.ppeItemBoxes.map
        (fun cb => ({ cb with checked := ["mask", "gloves"].contains cb.value } : Checkbox)) := by
    have hcomp : ∀ l : List Checkbox,
        l.map (fun cb => ({ cb with checked := ["mask", "gloves"].contains cb.value } : Checkbox)) =
          (l.map (fun cb => cb.value)).map
            (fun v => (⟨v, ["mask", "gloves"].contains v⟩ : Checkbox)) := by
      intro l
      rw [List.map_map]
      rfl
    rw [hcomp, hcomp, hboxes]
  simp only [resetClick, hmap]

/-- C10. From every calculator state the reset handler yields workers 10, workDays 22,
preset `basic` and an empty result table and total. The state it yields depends on the
state before only through the fixed `value` attributes of the page's checkboxes: two
states of the same page, in particular the states before and after a computation, are
reset to the same state, and resetting twice is resetting once. -/
theorem resetClick_restores_defaults (page other : Page) :
    (resetClick page).workers = some 10 ∧
    (resetClick page).workDays = some 22 ∧
    (resetClick page).ppeType = "basic" ∧
    (resetClick page).resultsTable = [] ∧
    (resetClick page).resultsTotal = none ∧
    (page.ppeItemBoxes.map (fun cb => cb.value) = other.ppeItemBoxes.map (fun cb => cb.value) →
      resetClick page = resetClick other) ∧
    (∀ result alerts, calculateClick page = .ok (result, alerts) →
      resetClick result = resetClick page) ∧
    resetClick (resetClick page) = resetClick page := by
  refine ⟨rfl, rfl, rfl, rfl, rfl, resetClick_congr page other, ?_, ?_⟩
  · intro result alerts h
    exact resetClick_congr _ _ (by rw [calculateClick_boxes page result alerts h])
  · apply resetClick_congr
    simp only [resetClick, List.map_map]
    rfl

/-- C10 on the page of the worked example, before and after the computation. -/
theorem resetClick_restores_defaults_witness :
    resetClick (Page.fresh (some 3) none "full" [⟨"mask", false⟩, ⟨"gown", true⟩]) =
      resetClick ⟨some 10, some 22, "custom", "block", [⟨"mask", true⟩, ⟨"gown", false⟩],
        [⟨"Face Masks", "Surgical/N95 masks", 440, "pieces", ⟨2, 0⟩⟩], some ⟨10, 22, 440⟩,
        "none"⟩ ∧
    resetClick (displayResults (Page.fresh (some 10) (some 22) "basic" [])
        [ ⟨"Face Masks", "Surgical/N95 masks", 440, "pieces", ⟨2, 0⟩⟩,
          ⟨"Gloves", "Disposable latex/nitrile gloves", 440, "pairs", ⟨2, 0⟩⟩,
          ⟨"Disposable Gowns", "Protective gowns/coveralls", 110, "pieces", ⟨5, 1⟩⟩ ]
        10 22 990) =
      resetClick (Page.fresh (some 10) (some 22) "basic" []) :=
  ⟨(resetClick_restores_defaults _ _).2.2.2.2.2.1 (by decide),
   (resetClick_restores_defaults (Page.fresh (some 10) (some 22) "basic" [])
      (Page.fresh none none "" [])).2.2.2.2.2.2.1 _ _ calculateClick_basic_example⟩

/-! ## Presets and item definitions -/

/-- C11. Every key listed in a preset of `ppePresets` is a key of `ppeItems`. Hence on a
page whose preset is `basic`, `full`, `respiratory` or `fall`, whatever the two number
fields hold, the calculate handler finds a definition for each selected key: it does not
throw and displays one line per key of the preset. -/
theorem presets_defined (page : Page) :
    ppePresets.map Prod.fst = ["basic", "full", "respiratory", "fall", "custom"] ∧
    (∀ e ∈ ppePresets, ∀ key ∈ e.2, (ppeItems.lookup key).isSome = true) ∧
    (page.ppeType ∈ ["basic", "full", "respiratory", "fall"] →
      ∃ keys, ppePresets.lookup page.ppeType = some keys ∧
        (keys.filterMap (fun key => ppeItems.lookup key)).length = keys.length ∧
        calculateClick page =
          .ok (displayResults page
            ((keys.filterMap (fun key => ppeItems.lookup key)).map
              (resultLine (parsedOr page.workers 10) (parsedOr page.workDays 22)))
            (parsedOr page.workers 10) (parsedOr page.workDays 22)
            (((keys.filterMap (fun key => ppeItems.lookup key)).map
              (fun item => (resultLine (parsedOr page.workers 10)
                (parsedOr page.workDays 22) item).qty)).sum), [])) := by
  have hall : ∀ e ∈ ppePresets, ∀ key ∈ e.2, (ppeItems.lookup key).isSome = true := by
    decide!
  refine ⟨rfl, hall, ?_⟩
  intro hpreset
  have hlookup : ∃ keys, ppePresets.lookup page.ppeType = some keys ∧ keys ≠ [] ∧
      page.ppeType ≠ "custom" := by
    simp only [List.mem_cons, List.mem_singleton, List.not_mem_nil, or_false] at hpreset
    rcases hpreset with h | h | h | h <;> rw [h] <;>
      exact ⟨_, rfl, by decide, by decide⟩
  obtain ⟨keys, hkeys, hne, hcustom⟩ := hlookup
  have hdefined : ∀ key ∈ keys, (ppeItems.lookup key).isSome = true :=
    hall (page.ppeType, keys) (mem_of_lookup_eq_some _ _ _ hkeys)
  have hsel : selectedItems page = some keys := by
    simp only [selectedItems, hcustom, if_false, hkeys]
  exact ⟨keys, hkeys, filterMap_lookup_length keys hdefined,
    calculateClick_lines page keys hsel hne hdefined⟩

/-- C11 on the preset `fall` with 5 workers and 20 days: four lines are displayed. -/
theorem presets_defined_witness :
    ∃ keys, ppePresets.lookup "fall" = some keys ∧
      (keys.filterMap (fun key => ppeItems.lookup key)).length = keys.length ∧
      calculateClick (Page.fresh (some 5) (some 20) "fall" []) =
        .ok (displayResults (Page.fresh (some 5) (some 20) "fall" [])
          ((keys.filterMap (fun key => ppeItems.lookup key)).map (resultLine 5 20)) 5 20
          (((keys.filterMap (fun key => ppeItems.lookup key)).map
            (fun item => (resultLine 5 20 item).qty)).sum), []) :=
  (presets_defined (Page.fresh (some 5) (some 20) "fall" [])).2.2 (by decide)

/-! ## Repeated categories -/

/-- The collected list has one entry per entry of the table whose keyword occurs. -/
theorem collectCategories_eq_filter_map (message : String) (tbl : List (String × String)) :
    collectCategories message tbl =
      (tbl.filter (fun e => includes message e.1)).map Prod.snd := by
  induction tbl with
  | nil => rfl
  | cons e tbl ih =>
    obtain ⟨keyword, category⟩ := e
    cases h : includes message keyword
    · simp only [collectCategories, h, Bool.false_eq_true, if_false, ih, List.filter_cons]
    · simp only [collectCategories, h, if_true, ih, List.filter_cons, List.map_cons]

/-- Removing repeated categories changes neither the emptiness test nor the membership
test of the filter, so it does not change the recommendations. -/
theorem getRelevantProducts_eq_dedup (toLowerCase : String → String)
    (shuffle : List Product → List Product) (m : String) (ps : List Product) :
    getRelevantProducts toLowerCase shuffle m ps =
      getRelevantProductsDedup toLowerCase shuffle m ps := by
  have hlen : (collectCategories (toLowerCase m) keywordMap).dedup.length = 0 ↔
      (collectCategories (toLowerCase m) keywordMap).length = 0 := by
    rw [List.length_eq_zero, List.length_eq_zero, List.dedup_eq_nil]
  have hmem : ∀ c : String, (collectCategories (toLowerCase m) keywordMap).dedup.contains c =
      (collectCategories (toLowerCase m) keywordMap).contains c := by
    intro c
    rw [Bool.eq_iff_iff]
    exact List.elem_iff.trans (List.mem_dedup.trans List.elem_iff.symm)
  unfold getRelevantProducts getRelevantProductsDedup
  simp only [hlen, hmem]

/-- C12, refuted as stated: repeated categories do not bias the filter. There is no
lower-casing, shuffle, message and product list for which the result differs from the
result with the matched-category list deduplicated first. -/
theorem getRelevantProducts_duplicates_no_bias :
    ¬ ∃ (toLowerCase : String → String) (shuffle : List Product → List Product) (m : String)
        (ps : List Product),
      getRelevantProducts toLowerCase shuffle m ps ≠
        getRelevantProductsDedup toLowerCase shuffle m ps := by
  rintro ⟨toLowerCase, shuffle, m, ps, h⟩
  exact h (getRelevantProducts_eq_dedup toLowerCase shuffle m ps)

/-- C12, amended. The matched-category list gets one entry per matching keyword and is not
deduplicated: a message containing both `harness` and `fall` yields `fall` twice. The
repetition has no effect on the result: the filter only tests membership, so for every
message and product list the products returned are those returned when the list is
deduplicated first. -/
theorem collectCategories_duplicates_harmless (toLowerCase : String → String)
    (shuffle : List Product → List Product) (m : String) (ps : List Product) :
    collectCategories (toLowerCase m) keywordMap =
      (keywordMap.filter (fun e => includes (toLowerCase m) e.1)).map Prod.snd ∧
    collectCategories "a harness for fall arrest" keywordMap = ["fall", "fall"] ∧
    ¬ (collectCategories "a harness for fall arrest" keywordMap).Nodup ∧
    getRelevantProducts toLowerCase shuffle m ps =
      getRelevantProductsDedup toLowerCase shuffle m ps := by
  refine ⟨collectCategories_eq_filter_map _ _, by decide!, ?_,
    getRelevantProducts_eq_dedup toLowerCase shuffle m ps⟩
  have h : collectCategories "a harness for fall arrest" keywordMap = ["fall", "fall"] := by
    decide!
  rw [h]
  decide

/-! ## The unreachable entry of the responder -/

/-- A text returned by the scan is bound to a key that occurs in the message. -/
theorem scanResponses_some (message : String) (tbl : List (String × String)) (text : String)
    (h : scanResponses message tbl = some text) :
    ∃ key, (key, text) ∈ tbl ∧ includes message key = true := by
  induction tbl with
  | nil => exact absurd h (by simp only [scanResponses]; exact fun hc => Option.noConfusion hc)
  | cons e tbl ih =>
    obtain ⟨key, response⟩ := e
    cases hk : includes message key
    · simp only [scanResponses, hk, Bool.false_eq_true, if_false] at h
      obtain ⟨key2, hmem, hinc⟩ := ih h
      exact ⟨key2, List.mem_cons_of_mem _ hmem, hinc⟩
    · simp only [scanResponses, hk, if_true, Option.some.injEq] at h
      subst h
      exact ⟨key, List.mem_cons_self _ _, hk⟩

/-- When `glove` occurs in the message, the scan stops at one of the first three entries. -/
theorem scanResponses_glove (message : String) (h : includes message "glove" = true) :
    ∃ text ∈ (responses.take 3).map Prod.snd, scanResponses message responses = some text := by
  cases h1 : includes message "construction"
  · cases h2 : includes message "hard hat"
    · refine ⟨_, ?_, scanResponses_first message responses (responses.take 2) (responses.drop 3)
        "glove" _ rfl ?_ h⟩
      · simp [responses]
      · intro p hp
        have hp2 : p = responses.get ⟨0, by decide⟩ ∨ p = responses.get ⟨1, by decide⟩ := by
          simpa [responses] using hp
        rcases hp2 with rfl | rfl
        · exact h1
        · exact h2
    · refine ⟨_, ?_, scanResponses_first message responses (responses.take 1) (responses.drop 2)
        "hard hat" _ rfl ?_ h2⟩
      · simp [responses]
      · intro p hp
        have hp2 : p = responses.get ⟨0, by decide⟩ := by simpa [responses] using hp
        rw [hp2]
        exact h1
  · refine ⟨_, ?_, scanResponses_first message responses [] (responses.drop 1)
      "construction" _ rfl ?_ h1⟩
    · simp [responses]
    · intro p hp
      exact absurd hp (List.not_mem_nil _)

/-- C13. `generateFallbackResponse` never returns the text bound to `chemical glove`: a
lower-cased message that contains `chemical glove` contains `glove`, which is declared
earlier, so the result is then the text of one of the first three keys (`construction`,
`hard hat`, `glove`); and no other entry carries the `chemical glove` text. -/
theorem chemical_glove_unreachable (toLowerCase : String → String) (m : String) :
    responses.lookup "chemical glove" =
      some "For chemical protection: Nitrile for oils/solvents, Butyl rubber for ketones/esters, Neoprene for acids/alcohols, Viton for chlorinated/aromatic solvents. Check chemical compatibility charts." ∧
    some (generateFallbackResponse toLowerCase m) ≠ responses.lookup "chemical glove" ∧
    (responses.take 3).map Prod.fst = ["construction", "hard hat", "glove"] ∧
    ("chemical glove".data <:+: (toLowerCase m).data →
      "glove".data <:+: (toLowerCase m).data ∧
      generateFallbackResponse toLowerCase m ∈ (responses.take 3).map Prod.snd) := by
  have hsub : "glove".data <:+: "chemical glove".data := by decide!
  have hearly : "chemical glove".data <:+: (toLowerCase m).data →
      "glove".data <:+: (toLowerCase m).data ∧
      generateFallbackResponse toLowerCase m ∈ (responses.take 3).map Prod.snd := by
    intro hchem
    have hglove := List.IsInfix.trans hsub hchem
    obtain ⟨text, hmem, hscan⟩ :=
      scanResponses_glove (toLowerCase m) ((includes_iff _ _).2 hglove)
    have hres : generateFallbackResponse toLowerCase m = text := by
      unfold generateFallbackResponse
      simp only [hscan]
    rw [hres]
    exact ⟨hglove, hmem⟩
  refine ⟨by decide!, ?_, rfl, hearly⟩
  intro heq
  have hfirst : ∀ text ∈ (responses.take 3).map Prod.snd,
      some text ≠ responses.lookup "chemical glove" := by decide!
  have hkey : ∀ e ∈ responses, some e.2 = responses.lookup "chemical glove" →
      e.1 = "chemical glove" := by decide!
  cases hscan : scanResponses (toLowerCase m) responses with
  | none =>
    have hres : generateFallbackResponse toLowerCase m = defaultResponse := by
      unfold generateFallbackResponse
      simp only [hscan]
    rw [hres] at heq
    exact absurd heq (by decide!)
  | some text =>
    have hres : generateFallbackResponse toLowerCase m = text := by
      unfold generateFallbackResponse
      simp only [hscan]
    rw [hres] at heq
    obtain ⟨key, hmem, hinc⟩ := scanResponses_some _ _ _ hscan
    have hk : key = "chemical glove" := hkey (key, text) hmem heq
    rw [hk] at hinc
    obtain ⟨_, hin⟩ := hearly ((includes_iff _ _).1 hinc)
    rw [hres] at hin
    exact hfirst text hin heq

/-- C13 at a message asking for chemical gloves: the answer is the `glove` text. -/
theorem chemical_glove_unreachable_witness :
    "glove".data <:+: (asciiLower "Best CHEMICAL GLOVE for acids?").data ∧
    generateFallbackResponse asciiLower "Best CHEMICAL GLOVE for acids?" ∈
      (responses.take 3).map Prod.snd :=
  (chemical_glove_unreachable asciiLower "Best CHEMICAL GLOVE for acids?").2.2.2 (by decide!)

/-! ## Recommendations over the built-in catalog -/

/-- C14. Over the catalog of `getPPEProducts`, for every message and every outcome of the
shuffle (a permutation of the catalog), `getRelevantProducts` returns at least one product:
the categories of `keywordMap` are respiratory, head, eye, hand, body, foot and fall, each
of them has a product in the catalog, and when no keyword occurs in the lower-cased
message exactly 4 products are returned. -/
theorem getRelevantProducts_nonempty (toLowerCase : String → String)
    (shuffle : List Product → List Product) (m : String)
    (hshuffle : (shuffle getPPEProducts).Perm getPPEProducts) :
    (keywordMap.map Prod.snd).dedup =
      ["respiratory", "head", "eye", "hand", "body", "foot", "fall"] ∧
    (∀ e ∈ keywordMap, ∃ p ∈ getPPEProducts, p.category = e.2) ∧
    0 < (getRelevantProducts toLowerCase shuffle m getPPEProducts).length ∧
    ((∀ e ∈ keywordMap, ¬ e.1.data <:+: (toLowerCase m).data) →
      (getRelevantProducts toLowerCase shuffle m getPPEProducts).length = 4) := by
  have hcat : ∀ e ∈ keywordMap, ∃ p ∈ getPPEProducts, p.category = e.2 := by decide!
  have hlen : (shuffle getPPEProducts).length = 9 := hshuffle.length_eq
  have hfour : (∀ e ∈ keywordMap, ¬ e.1.data <:+: (toLowerCase m).data) →
      (getRelevantProducts toLowerCase shuffle m getPPEProducts).length = 4 := by
    intro hnone
    have hzero := (collectCategories_length_eq_zero (toLowerCase m) keywordMap).2 hnone
    simp only [getRelevantProducts, hzero, if_true, List.length_take, hlen]
    rfl
  refine ⟨by decide!, hcat, ?_, hfour⟩
  by_cases hnone : ∀ e ∈ keywordMap, ¬ e.1.data <:+: (toLowerCase m).data
  · rw [hfour hnone]
    decide
  · have hne : ¬ (collectCategories (toLowerCase m) keywordMap).length = 0 :=
      fun h => hnone ((collectCategories_length_eq_zero _ _).1 h)
    obtain ⟨e, he, hinc⟩ : ∃ e ∈ keywordMap, e.1.data <:+: (toLowerCase m).data := by
      by_contra hcon
      exact hnone (fun e he hinc => hcon ⟨e, he, hinc⟩)
    obtain ⟨p, hp, hpc⟩ := hcat e he
    have hmem : p.category ∈ collectCategories (toLowerCase m) keywordMap :=
      (mem_collectCategories _ _ _).2 ⟨e, he, hinc, hpc.symm⟩
    have hfilter : p ∈ getPPEProducts.filter (fun product =>
        (collectCategories (toLowerCase m) keywordMap).contains product.category) :=
      List.mem_filter.2 ⟨hp, List.elem_iff.2 hmem⟩
    have hpos := List.length_pos_of_mem hfilter
    simp only [getRelevantProducts, hne, if_false, List.length_take]
    omega

/-- C14 at a message naming a keyword whose category has a single product (`boot`, foot),
the shuffle reversing the catalog. -/
theorem getRelevantProducts_nonempty_witness :
    0 < (getRelevantProducts asciiLower List.reverse "steel toe BOOT" getPPEProducts).length ∧
    (getRelevantProducts asciiLower List.reverse "no keyword here" getPPEProducts).length = 4 :=
  ⟨(getRelevantProducts_nonempty asciiLower List.reverse "steel toe BOOT"
      (List.reverse_perm _)).2.2.1,
   (getRelevantProducts_nonempty asciiLower List.reverse "no keyword here"
      (List.reverse_perm _)).2.2.2 (by decide!)⟩

end PPEMarts
